import Mathlib

/-!
# Verification of the yvm Java heap (`src/runtime/JavaHeap.hpp`)

Shallow embedding of the heap module of the yvm runtime.

* `Container<Type>` wraps a `std::map<size_t, Type>`: an ordered key/value
  map with strictly increasing keys.  We embed the map as an association
  list in strictly increasing key order (`Store`), which is exactly the
  representation invariant `std::map` maintains, and we prove that every
  store reachable from the empty store by `place`/`remove` operations
  satisfies it (`SortedKeys`).
* `data.find(offset)->second` on an absent key dereferences the end
  iterator, which is undefined behaviour in C++; likewise
  `dynamic_cast<const JObject*>(ref)->offset` dereferences a null pointer
  when `ref` is not an object reference.  The code has no error path at
  any of these points — none of the typed failures of the specification's
  taxonomy (`NotFound`, `InvalidReferenceKind`, `NoMonitor`) is ever
  constructed.  The embedding therefore returns `none` at each such
  out-of-contract access, marking that no record (and no error value)
  is produced.
* The bodies of `createObject` / `createSuperFields` and of the name-based
  field resolution live in `JavaHeap.cpp`, and the `JType` class hierarchy
  lives in `JavaType.h`; neither file is part of the sources, so those
  parts are modelled from the specification and say so in their doc
  comments.
-/

/-- The `HeapError` taxonomy of the specification (§7).  `JavaHeap.hpp`
never constructs any of these values: every failure point in the code is
an unchecked dereference (undefined behaviour), marked by `none` in the
embedding below. -/
inductive HeapError where
  | NotFound
  | FieldNotFound
  | DescriptorMismatch
  | NoMonitor
  | InvalidReferenceKind
deriving DecidableEq, Repr

/-- Embedding of `std::map<size_t, Type>`: an association list kept in
strictly increasing key order. -/
abbrev Store (α : Type) := List (Nat × α)

/-- The key sequence of a store. -/
def keys {α : Type} (s : Store α) : List Nat := s.map Prod.fst

/-- `std::map` representation invariant: keys strictly increase. -/
abbrev SortedKeys {α : Type} (s : Store α) : Prop :=
  List.Pairwise (fun a b => a < b) (keys s)

/-- `data.find(offset)` as a lookup: `some` iff the key is present. -/
def mapFind {α : Type} : Store α → Nat → Option α
  | [], _ => none
  | (k, v) :: rest, k0 => if k0 = k then some v else mapFind rest k0

/-- `data.insert(make_pair(k, v))`: inserts in key order, and (as with
`std::map::insert`) leaves the map unchanged when the key is present. -/
def mapInsert {α : Type} : Store α → Nat → α → Store α
  | [], k0, v0 => [(k0, v0)]
  | (k, v) :: rest, k0, v0 =>
    if k0 < k then (k0, v0) :: (k, v) :: rest
    else if k0 = k then (k, v) :: rest
    else (k, v) :: mapInsert rest k0 v0

/-- `data.erase(offset)`: removes the entry with the given key. -/
def mapErase {α : Type} : Store α → Nat → Store α
  | [], _ => []
  | (k, v) :: rest, k0 => if k0 = k then rest else (k, v) :: mapErase rest k0

/-- In-place mutation of a present record
(`container.find(offset) = f(old)`); mutating an absent record is
undefined behaviour in the C++ and leaves the model unchanged. -/
def mapUpdate {α : Type} : Store α → Nat → (α → α) → Store α
  | [], _, _ => []
  | (k, v) :: rest, k0, f =>
    if k0 = k then (k, f v) :: rest else (k, v) :: mapUpdate rest k0 f

/-- `(--data.end())->first`: the key of the last entry, 0 for an empty
map (mirrors `size_t lastOffset = 0; if (!data.empty()) ...`). -/
def lastKey {α : Type} (s : Store α) : Nat :=
  match s.getLast? with
  | some kv => kv.1
  | none => 0

/-- The largest key among the live entries (0 if none): the "largest
handle currently live" of the specification. -/
def maxHandle {α : Type} (s : Store α) : Nat :=
  (keys s).foldr max 0

/-- `Container<Type>::place()` (JavaHeap.hpp lines 64–72): take the last
key (0 if empty), insert a default-initialised record at that key plus
one, and return that key plus one. -/
def Container.place {α : Type} (s : Store α) (d : α) : Store α × Nat :=
  let lastOffset := lastKey s
  (mapInsert s (lastOffset + 1) d, lastOffset + 1)

/-- `Container<Type>::remove(offset)` (lines 57–62): erase the entry if
present, no-op otherwise. -/
def Container.remove {α : Type} (s : Store α) (k : Nat) : Store α :=
  if (mapFind s k).isSome then mapErase s k else s

/-- `Container<Type>::find(offset)` (line 47): `data.find(offset)->second`.
The map lookup yields the record when the key is present; on an absent
key the C++ unconditionally dereferences the end iterator — undefined
behaviour with no error path of any kind.  The model returns `none` to
mark that out-of-contract access; no `NotFound` value is constructed
anywhere in the code. -/
def Container.find {α : Type} (s : Store α) (k : Nat) : Option α :=
  mapFind s k

/-- `Container<Type>::has(offset)` (line 48). -/
def Container.has {α : Type} (s : Store α) (k : Nat) : Bool :=
  (mapFind s k).isSome

/-- `MonitorContainer::place()` (lines 142–149): same key computation as
the generic `place`, but eagerly stores a freshly constructed monitor
(`new ObjectMonitor()`, modelled by a caller-supplied fresh identifier). -/
def MonitorContainer.place (s : Store Nat) (fresh : Nat) : Store Nat × Nat :=
  let lastOffset := lastKey s
  (mapInsert s (lastOffset + 1) fresh, lastOffset + 1)

-- ## Basic lemmas about the map embedding

theorem mem_keys_mapInsert {α : Type} (s : Store α) (k0 : Nat) (v0 : α) :
    ∀ x ∈ keys (mapInsert s k0 v0), x = k0 ∨ x ∈ keys s := by
  induction s with
  | nil => intro x hx; simp [mapInsert, keys] at hx; simp [hx]
  | cons kv rest ih =>
    intro x hx
    obtain ⟨k, v⟩ := kv
    by_cases h1 : k0 < k
    · simp [mapInsert, h1, keys] at hx
      rcases hx with h | h | h
      · exact Or.inl h
      · exact Or.inr (by simp [keys, h])
      · exact Or.inr (by simp [keys]; exact Or.inr h)
    · by_cases h2 : k0 = k
      · simp [mapInsert, h1, h2, keys] at hx
        rcases hx with h | h
        · exact Or.inr (by simp [keys, h])
        · exact Or.inr (by simp [keys]; exact Or.inr h)
      · simp [mapInsert, h1, h2, keys] at hx
        rcases hx with h | h
        · exact Or.inr (by simp [keys, h])
        · rcases ih x (by simpa [keys] using h) with h3 | h3
          · exact Or.inl h3
          · exact Or.inr (by simp [keys] at h3 ⊢; exact Or.inr h3)

theorem sortedKeys_mapInsert {α : Type} (s : Store α) (k0 : Nat) (v0 : α)
    (hs : SortedKeys s) : SortedKeys (mapInsert s k0 v0) := by
  induction s with
  | nil => simp [mapInsert, SortedKeys, keys]
  | cons kv rest ih =>
    obtain ⟨k, v⟩ := kv
    simp only [SortedKeys, keys, List.map_cons, List.pairwise_cons] at hs
    obtain ⟨hk, hrest⟩ := hs
    by_cases h1 : k0 < k
    · simp only [mapInsert, h1, if_pos]
      constructor
      · intro y hy
        simp [keys] at hy
        rcases hy with h | h
        · omega
        · have := hk y (by simpa [keys] using h)
          omega
      · exact List.Pairwise.cons hk hrest
    · by_cases h2 : k0 = k
      · simpa [mapInsert, h1, h2, SortedKeys, keys] using
          List.Pairwise.cons hk hrest
      · simp only [mapInsert, h1, if_neg, h2, if_neg, not_false_iff]
        have hlt : k < k0 := by omega
        constructor
        · intro y hy
          rcases mem_keys_mapInsert rest k0 v0 y (by simpa [keys] using hy) with
            h | h
          · omega
          · exact hk y h
        · exact ih hrest

theorem mapErase_sublist {α : Type} (s : Store α) (k0 : Nat) :
    List.Sublist (mapErase s k0) s := by
  induction s with
  | nil => simp [mapErase]
  | cons kv rest ih =>
    obtain ⟨k, v⟩ := kv
    by_cases h : k0 = k
    · simp only [mapErase, h, if_pos]
      exact List.sublist_cons_self (k, v) rest
    · simp only [mapErase, h, if_neg, not_false_iff]
      exact List.Sublist.cons₂ (k, v) ih

theorem sortedKeys_mapErase {α : Type} (s : Store α) (k0 : Nat)
    (hs : SortedKeys s) : SortedKeys (mapErase s k0) :=
  List.Pairwise.sublist (List.Sublist.map Prod.fst (mapErase_sublist s k0)) hs

theorem mapFind_mem_keys {α : Type} (s : Store α) (k0 : Nat) (v : α)
    (h : mapFind s k0 = some v) : k0 ∈ keys s := by
  induction s with
  | nil => simp [mapFind] at h
  | cons kv rest ih =>
    obtain ⟨k, w⟩ := kv
    by_cases hk : k0 = k
    · simp [keys, hk]
    · simp only [mapFind, hk, if_neg, not_false_iff] at h
      simp [keys]
      exact Or.inr (by simpa [keys] using ih h)

theorem keys_cons {α : Type} (kv : Nat × α) (l : Store α) :
    keys (kv :: l) = kv.1 :: keys l := rfl

theorem lastKey_cons_cons {α : Type} (kv kv2 : Nat × α) (l : Store α) :
    lastKey (kv :: kv2 :: l) = lastKey (kv2 :: l) := by
  simp [lastKey, List.getLast?_cons_cons]

theorem lastKey_mem_keys {α : Type} (s : Store α) (hne : s ≠ []) :
    lastKey s ∈ keys s := by
  induction s with
  | nil => exact absurd rfl hne
  | cons kv rest ih =>
    rcases rest with _ | ⟨kv2, rest2⟩
    · simp [lastKey, keys, List.getLast?]
    · rw [lastKey_cons_cons, keys_cons]
      exact List.mem_cons_of_mem _ (ih (by simp))

theorem key_le_lastKey {α : Type} (s : Store α) (hs : SortedKeys s) :
    ∀ x ∈ keys s, x ≤ lastKey s := by
  induction s with
  | nil => simp [keys]
  | cons kv rest ih =>
    intro x hx
    rcases rest with _ | ⟨kv2, rest2⟩
    · rcases kv with ⟨k, v⟩
      simp [keys] at hx
      simp [lastKey, List.getLast?, hx]
    · have hs2 : List.Pairwise (fun a b => a < b)
          (kv.1 :: keys (kv2 :: rest2)) := hs
      obtain ⟨hk, htail⟩ := List.pairwise_cons.mp hs2
      rw [lastKey_cons_cons]
      rw [keys_cons] at hx
      rcases List.mem_cons.mp hx with h | h
      · have hmem := lastKey_mem_keys (kv2 :: rest2) (by simp)
        subst h
        exact le_of_lt (hk _ hmem)
      · exact ih htail x h

theorem lastKey_eq_maxHandle {α : Type} (s : Store α) (hs : SortedKeys s) :
    lastKey s = maxHandle s := by
  induction s with
  | nil => simp [lastKey, maxHandle, keys]
  | cons kv rest ih =>
    rcases rest with _ | ⟨kv2, rest2⟩
    · simp [lastKey, maxHandle, keys, List.getLast?]
    · have hs2 : List.Pairwise (fun a b => a < b)
          (kv.1 :: keys (kv2 :: rest2)) := hs
      obtain ⟨hk, htail⟩ := List.pairwise_cons.mp hs2
      have hmem := lastKey_mem_keys (kv2 :: rest2) (by simp)
      have hklt : kv.1 < lastKey (kv2 :: rest2) := hk _ hmem
      have hih : lastKey (kv2 :: rest2) = maxHandle (kv2 :: rest2) := ih htail
      rw [lastKey_cons_cons]
      have hmax : maxHandle (kv :: kv2 :: rest2) =
          max kv.1 (maxHandle (kv2 :: rest2)) := rfl
      rw [hmax, ← hih]
      omega

theorem mapFind_fresh_none {α : Type} (s : Store α) (hs : SortedKeys s) :
    mapFind s (lastKey s + 1) = none := by
  cases h : mapFind s (lastKey s + 1) with
  | none => rfl
  | some v =>
    have hmem := mapFind_mem_keys s (lastKey s + 1) v h
    have := key_le_lastKey s hs (lastKey s + 1) hmem
    omega

theorem mapFind_mapInsert_self {α : Type} (s : Store α) (k0 : Nat) (v0 : α)
    (hfresh : mapFind s k0 = none) :
    mapFind (mapInsert s k0 v0) k0 = some v0 := by
  induction s with
  | nil => simp [mapInsert, mapFind]
  | cons kv rest ih =>
    obtain ⟨k, v⟩ := kv
    by_cases h1 : k0 < k
    · simp [mapInsert, h1, mapFind]
    · by_cases h2 : k0 = k
      · simp [mapFind, h2] at hfresh
      · simp only [mapFind, h2, if_neg, not_false_iff] at hfresh
        simp [mapInsert, h1, h2, mapFind, ih hfresh]

theorem mapFind_mapInsert_ne {α : Type} (s : Store α) (k0 k1 : Nat) (v0 : α)
    (hne : k1 ≠ k0) :
    mapFind (mapInsert s k0 v0) k1 = mapFind s k1 := by
  induction s with
  | nil => simp [mapInsert, mapFind, hne]
  | cons kv rest ih =>
    obtain ⟨k, v⟩ := kv
    by_cases h1 : k0 < k
    · have h4 : k ≠ k0 := by omega
      by_cases h3 : k1 = k
      · simp [mapInsert, h1, mapFind, h3, hne, h4]
      · simp [mapInsert, h1, mapFind, h3, hne]
    · by_cases h2 : k0 = k
      · simp [mapInsert, h1, h2]
      · by_cases h3 : k1 = k
        · simp [mapInsert, h1, h2, mapFind, h3]
        · simp [mapInsert, h1, h2, mapFind, h3, ih]

-- ## Data model

/-- Modelled from the spec: `JavaType.h` is not part of the sources; the
specification describes the value representation as a class-metadata
descriptor exposing the ancestor chain in root-to-leaf order with each
class's ordered list of declared `(name, descriptor)` field pairs. -/
structure FieldInfo where
  fieldName : String
  descriptor : String
deriving DecidableEq, Repr

/-- Modelled from the spec: a class descriptor, given as the ancestor
chain `[Root, ..., C]` (root first), each entry carrying that class's own
declared fields in declaration order. -/
structure JavaClassChain where
  chain : List (List FieldInfo)
deriving DecidableEq, Repr

/-- `JObject`: a reference value carrying the object-store handle
(`offset`) and the actual runtime class (`jc`). -/
structure JObject where
  offset : Nat
  jc : JavaClassChain
deriving DecidableEq, Repr

/-- `JArray`: a reference value carrying the array-store handle and the
array length. -/
structure JArray where
  offset : Nat
  length : Nat
deriving DecidableEq, Repr

/-- Modelled from the spec: `JType` (defined in the missing `JavaType.h`)
is a tagged variant over primitive values, object references and array
references; `JObject` and `JArray` are sibling subclasses, so a
`dynamic_cast<const JObject*>` succeeds exactly on the object variant. -/
inductive JValue where
  | prim (v : Int)
  | objRef (o : JObject)
  | arrRef (a : JArray)
deriving DecidableEq, Repr

/-- A field/element slot holds a `JType*`, possibly null. -/
abbrev Slot := Option JValue

/-- `dynamic_cast<const JObject*>(ref)`: `some` exactly on the object
variant, `none` (the null pointer) otherwise. -/
def asJObject : JValue → Option JObject
  | JValue.objRef o => some o
  | JValue.prim _ => none
  | JValue.arrRef _ => none

/-- The `JavaHeap` state (lines 238–241): the three stores plus a counter
supplying the identity of the next `new ObjectMonitor()`. -/
structure JavaHeap where
  objectContainer : Store (List Slot)
  arrayContainer : Store (Nat × List Slot)
  monitorContainer : Store Nat
  nextMonitor : Nat
deriving DecidableEq, Repr

/-- A freshly constructed heap: all three stores empty. -/
def emptyHeap : JavaHeap := ⟨[], [], [], 0⟩

-- ## Instance creation and field layout (spec-modelled)

/-- Modelled from the spec: `JavaHeap::createSuperFields` (declared at
line 227, body in the missing `JavaHeap.cpp`) recursively initialises the
superclass-contributed slots before the class's own slots, so the flat
record is the concatenation, root first, of one default slot per declared
field of each class of the chain.  The concrete default value of a slot
is supplied by the missing `JavaType.h`; the layout is all that matters
here, so every slot starts as a null pointer. -/
def createSuperFields : List (List FieldInfo) → List Slot
  | [] => []
  | fs :: rest => fs.map (fun _ => (none : Slot)) ++ createSuperFields rest

/-- Total field-slot count of an instance of the class: the sum of the
declared-field counts across the full ancestor chain. -/
def totalSlots (c : JavaClassChain) : Nat := (c.chain.map List.length).sum

/-- Modelled from the spec: `JavaHeap::createObject` (declared at line
163, body in the missing `JavaHeap.cpp`) allocates an object-store record
of exactly `totalSlots` slots at the next handle and returns a reference
wrapping that handle and the class. -/
def createObject (hp : JavaHeap) (c : JavaClassChain) : JavaHeap × JObject :=
  let lastOffset := lastKey hp.objectContainer
  ({ hp with
      objectContainer :=
        mapInsert hp.objectContainer (lastOffset + 1)
          (createSuperFields c.chain) },
    ⟨lastOffset + 1, c⟩)

/-- Where the `i`-th class of the chain's own fields begin in the flat
layout: the sum of the declared-field counts of all of its ancestors. -/
def fieldBase (chain : List (List FieldInfo)) (i : Nat) : Nat :=
  ((chain.take i).map List.length).sum

/-- Modelled from the spec: the position, in declaration order, of the
first field of a class's own field list matching the given name and
descriptor. -/
def localFieldIdx (fs : List FieldInfo) (nm ds : String) : Option Nat :=
  match fs with
  | [] => none
  | f :: rest =>
    if f.fieldName = nm ∧ f.descriptor = ds then some 0
    else (localFieldIdx rest nm ds).map (fun j => j + 1)

/-- Modelled from the spec: name-based field resolution
(`getFieldByNameImpl` / `putFieldByNameImpl`, declared at lines 229–236,
bodies in the missing `JavaHeap.cpp`) walks the ancestor chain of the
instance's actual class to the declaring class (here the `i`-th class of
the chain), then finds the `(name, descriptor)` match in that class's own
field list by declaration order and adds its local index to the base. -/
def resolveField (chain : List (List FieldInfo)) (i : Nat) (nm ds : String) :
    Option Nat :=
  match chain[i]? with
  | none => none
  | some fs =>
    (localFieldIdx fs nm ds).map (fun j => fieldBase chain i + j)

-- ## Heap facade operations (JavaHeap.hpp lines 177–224)

/-- `JavaHeap::putFieldByOffset` (lines 177–181):
`objectContainer.find(object.offset)[fieldOffset] = value`.  Mutating an
absent record or an out-of-range slot is undefined behaviour in the C++;
the model leaves the store unchanged there, and every theorem below
assumes a live handle and an in-bounds index. -/
def putFieldByOffset (hp : JavaHeap) (o : JObject) (fieldOffset : Nat)
    (v : Slot) : JavaHeap :=
  { hp with
      objectContainer :=
        mapUpdate hp.objectContainer o.offset
          (fun fields => fields.set fieldOffset v) }

/-- `JavaHeap::getFieldByOffset` (lines 182–185). -/
def getFieldByOffset (hp : JavaHeap) (o : JObject) (fieldOffset : Nat) :
    Option Slot :=
  (mapFind hp.objectContainer o.offset).bind (fun fields => fields[fieldOffset]?)

/-- `JavaHeap::putElement` (lines 191–194):
`arrayContainer.find(array.offset).second[index] = value`. -/
def putElement (hp : JavaHeap) (a : JArray) (index : Nat) (v : Slot) :
    JavaHeap :=
  { hp with
      arrayContainer :=
        mapUpdate hp.arrayContainer a.offset
          (fun p => (p.1, p.2.set index v)) }

/-- `JavaHeap::getElement` (lines 195–198). -/
def getElement (hp : JavaHeap) (a : JArray) (index : Nat) : Option Slot :=
  (mapFind hp.arrayContainer a.offset).bind (fun p => p.2[index]?)

/-- `JavaHeap::removeObject` (lines 208–211). -/
def removeObject (hp : JavaHeap) (offset : Nat) : JavaHeap :=
  { hp with objectContainer := Container.remove hp.objectContainer offset }

/-- `JavaHeap::removeArray` (lines 204–207). -/
def removeArray (hp : JavaHeap) (offset : Nat) : JavaHeap :=
  { hp with arrayContainer := Container.remove hp.arrayContainer offset }

/-- `JavaHeap::hasMonitor` (lines 213–216):
`monitorContainer.has(dynamic_cast<const JObject*>(ref)->offset)`.  The
cast result is dereferenced with no null check: on a non-object value
the cast yields a null pointer and `->offset` is undefined behaviour,
with no typed failure reported.  The model returns `none` there; no
`InvalidReferenceKind` value is constructed anywhere in the code. -/
def hasMonitor (hp : JavaHeap) (ref : JValue) : Option Bool :=
  (asJObject ref).map (fun o => Container.has hp.monitorContainer o.offset)

/-- `JavaHeap::createMonitor` (lines 217–220): places a fresh monitor in
the monitor store and returns the new monitor handle.  Note that it takes
no instance argument. -/
def createMonitor (hp : JavaHeap) : JavaHeap × Nat :=
  let placed := MonitorContainer.place hp.monitorContainer hp.nextMonitor
  ({ hp with monitorContainer := placed.1, nextMonitor := hp.nextMonitor + 1 },
    placed.2)

/-- `JavaHeap::findMonitor` (lines 221–224):
`monitorContainer.find(dynamic_cast<const JObject*>(ref)->offset)`.
Both failure points — a failed cast (null-pointer dereference) and an
absent monitor record (end-iterator dereference inside `find`) — are
undefined behaviour with no error handling; the model returns `none` for
both, and neither an `InvalidReferenceKind` nor a `NoMonitor` value is
constructed anywhere in the code. -/
def findMonitor (hp : JavaHeap) (ref : JValue) : Option Nat :=
  (asJObject ref).bind (fun o => Container.find hp.monitorContainer o.offset)

-- ## Operation sequences on a single store (for the uniqueness invariant)

/-- One step of the arena interface used by a single store: an
`allocate` (`place`) or a `remove(handle)`. -/
inductive StoreOp where
  | placeOp : StoreOp
  | removeOp : Nat → StoreOp
deriving DecidableEq, Repr

/-- Apply one operation to a store (`d` is the default record that
`place` inserts). -/
def applyOp {α : Type} (d : α) (s : Store α) : StoreOp → Store α
  | StoreOp.placeOp => (Container.place s d).1
  | StoreOp.removeOp h => Container.remove s h

/-- Run a sequence of operations starting from the empty store. -/
def runOps {α : Type} (d : α) (ops : List StoreOp) : Store α :=
  ops.foldl (applyOp d) []

-- ## Ownership model for removal (for the slot-value destruction claim)

/-- The object store together with the set of currently allocated
`JType` field values (`alloc` lists the live `new`-ed pointers; `delete`
removes a pointer from it).  Records map a handle to the list of pointers
held in its slots. -/
structure OwnedObjectStore where
  data : Store (List Nat)
  alloc : List Nat
deriving DecidableEq, Repr

/-- `removeObject` as the code performs it on the object store
(`Container::remove`, lines 57–62): only `data.erase(offset)` runs — no
`delete` of any slot value, so `alloc` is untouched. -/
def OwnedObjectStore.removeRecord (s : OwnedObjectStore) (k : Nat) :
    OwnedObjectStore :=
  { s with data := Container.remove s.data k }

/-- `ObjectContainer::~ObjectContainer` (lines 108–116): iterates every
record still present and deletes each slot pointer. -/
def ObjectContainer.destruct (s : OwnedObjectStore) : OwnedObjectStore :=
  { data := s.data,
    alloc := s.alloc.filter
      (fun p => !(s.data.any (fun kv => kv.2.contains p))) }

/-- The array store with its allocated element values; records map a
handle to the pair (length, element pointer list).  The backing
`JType**` storage freed by `delete[]` in the destructor is not tracked
separately; the element values suffice for the claim. -/
structure OwnedArrayStore where
  data : Store (Nat × List Nat)
  alloc : List Nat
deriving DecidableEq, Repr

/-- `removeArray` as the code performs it (`Container::remove`): only
the map entry is erased; no element value is deleted. -/
def OwnedArrayStore.removeRecord (s : OwnedArrayStore) (k : Nat) :
    OwnedArrayStore :=
  { s with data := Container.remove s.data k }

/-- `ArrayContainer::~ArrayContainer` (lines 84–93): deletes every
element value of every record still present. -/
def ArrayContainer.destruct (s : OwnedArrayStore) : OwnedArrayStore :=
  { data := s.data,
    alloc := s.alloc.filter
      (fun p => !(s.data.any (fun kv => kv.2.2.contains p))) }

-- ## Invariant lemmas for operation sequences

theorem sortedKeys_place {α : Type} (s : Store α) (d : α) (hs : SortedKeys s) :
    SortedKeys (Container.place s d).1 :=
  sortedKeys_mapInsert s (lastKey s + 1) d hs

theorem sortedKeys_remove {α : Type} (s : Store α) (k : Nat)
    (hs : SortedKeys s) : SortedKeys (Container.remove s k) := by
  unfold Container.remove
  split
  · exact sortedKeys_mapErase s k hs
  · exact hs

theorem sortedKeys_applyOp {α : Type} (d : α) (s : Store α) (op : StoreOp)
    (hs : SortedKeys s) : SortedKeys (applyOp d s op) := by
  cases op with
  | placeOp => exact sortedKeys_place s d hs
  | removeOp h => exact sortedKeys_remove s h hs

theorem sortedKeys_foldl {α : Type} (d : α) (ops : List StoreOp) :
    ∀ s : Store α, SortedKeys s → SortedKeys (ops.foldl (applyOp d) s) := by
  induction ops with
  | nil => intro s hs; exact hs
  | cons op rest ih =>
    intro s hs
    exact ih (applyOp d s op) (sortedKeys_applyOp d s op hs)

theorem sortedKeys_runOps {α : Type} (d : α) (ops : List StoreOp) :
    SortedKeys (runOps d ops) :=
  sortedKeys_foldl d ops [] (by simp [SortedKeys, keys])

-- ## Claims

/-- C1: for every store (object, array, monitor), `Container::place` /
`MonitorContainer::place` returns a handle equal to one greater than the
largest handle currently live in that store, equal to 1 when the store is
empty, and stores the new record under exactly that handle. -/
theorem C1_place_next_handle {α : Type} (s : Store α) (d : α) (m : Store Nat)
    (fresh : Nat) (hs : SortedKeys s) (hm : SortedKeys m) :
    (Container.place s d).2 = maxHandle s + 1 ∧
    (s = [] → (Container.place s d).2 = 1) ∧
    mapFind (Container.place s d).1 (Container.place s d).2 = some d ∧
    (MonitorContainer.place m fresh).2 = maxHandle m + 1 ∧
    (m = [] → (MonitorContainer.place m fresh).2 = 1) ∧
    mapFind (MonitorContainer.place m fresh).1
      (MonitorContainer.place m fresh).2 = some fresh := by
  refine ⟨?_, ?_, ?_, ?_, ?_, ?_⟩
  · simp [Container.place, lastKey_eq_maxHandle s hs]
  · intro h; subst h; rfl
  · show mapFind (mapInsert s (lastKey s + 1) d) (lastKey s + 1) = some d
    exact mapFind_mapInsert_self s (lastKey s + 1) d (mapFind_fresh_none s hs)
  · simp [MonitorContainer.place, lastKey_eq_maxHandle m hm]
  · intro h; subst h; rfl
  · show mapFind (mapInsert m (lastKey m + 1) fresh) (lastKey m + 1) =
      some fresh
    exact mapFind_mapInsert_self m (lastKey m + 1) fresh
      (mapFind_fresh_none m hm)

/-- Witness for C1 at concrete stores. -/
theorem C1_place_next_handle_witness :
    (Container.place ([(1, 10), (3, 11)] : Store Nat) 5).2 =
      maxHandle ([(1, 10), (3, 11)] : Store Nat) + 1 ∧
    (([(1, 10), (3, 11)] : Store Nat) = [] →
      (Container.place ([(1, 10), (3, 11)] : Store Nat) 5).2 = 1) ∧
    mapFind (Container.place ([(1, 10), (3, 11)] : Store Nat) 5).1
      (Container.place ([(1, 10), (3, 11)] : Store Nat) 5).2 = some 5 ∧
    (MonitorContainer.place ([] : Store Nat) 7).2 =
      maxHandle ([] : Store Nat) + 1 ∧
    (([] : Store Nat) = [] → (MonitorContainer.place ([] : Store Nat) 7).2 = 1) ∧
    mapFind (MonitorContainer.place ([] : Store Nat) 7).1
      (MonitorContainer.place ([] : Store Nat) 7).2 = some 7 :=
  C1_place_next_handle [(1, 10), (3, 11)] 5 [] 7 (by decide) (by decide)

/-- C2: after any sequence of `place`/`remove` operations starting from
the empty store, no two live records share a handle, and the handle
`place` would return next is not live at the moment of allocation. -/
theorem C2_handle_uniqueness {α : Type} (d : α) (ops : List StoreOp) :
    (keys (runOps d ops)).Nodup ∧
    mapFind (runOps d ops) (Container.place (runOps d ops) d).2 = none := by
  have hs := sortedKeys_runOps d ops
  constructor
  · exact List.Pairwise.imp (fun h => Nat.ne_of_lt h) hs
  · show mapFind (runOps d ops) (lastKey (runOps d ops) + 1) = none
    exact mapFind_fresh_none (runOps d ops) hs

/-- C5 (code behaviour at the failing input): handle 2 is not live in a
store holding only handle 1, and `Container::find` on it yields no
record — and no `NotFound` error either.  Line 47 has no error path: it
unconditionally dereferences `data.find(offset)->second`, which on an
absent key is an end-iterator dereference (undefined behaviour), so the
arena-level `NotFound` failure the claim describes is never produced by
the code. -/
theorem C5_find_not_found_missing :
    Container.has ([(1, 5)] : Store Nat) 2 = false ∧
    Container.find ([(1, 5)] : Store Nat) 2 = none :=
  ⟨rfl, rfl⟩

-- ## Lemmas for slot updates and layout

theorem mapFind_mapUpdate_self {α : Type} (s : Store α) (k : Nat) (f : α → α)
    (v : α) (h : mapFind s k = some v) :
    mapFind (mapUpdate s k f) k = some (f v) := by
  induction s with
  | nil => simp [mapFind] at h
  | cons kv rest ih =>
    obtain ⟨k1, v1⟩ := kv
    by_cases hk : k = k1
    · simp [mapFind, hk] at h
      simp [mapUpdate, hk, mapFind, h]
    · simp only [mapFind, hk, if_neg, not_false_iff] at h
      simp [mapUpdate, hk, mapFind, ih h]

theorem mapFind_mapUpdate_ne {α : Type} (s : Store α) (k0 k1 : Nat)
    (f : α → α) (hne : k1 ≠ k0) :
    mapFind (mapUpdate s k0 f) k1 = mapFind s k1 := by
  induction s with
  | nil => simp [mapUpdate]
  | cons kv rest ih =>
    obtain ⟨k, v⟩ := kv
    by_cases h0 : k0 = k
    · subst h0
      simp [mapUpdate, mapFind, hne]
    · by_cases h1 : k1 = k
      · simp [mapUpdate, h0, mapFind, h1]
      · simp [mapUpdate, h0, mapFind, h1, ih]

theorem createSuperFields_length (chain : List (List FieldInfo)) :
    (createSuperFields chain).length = (chain.map List.length).sum := by
  induction chain with
  | nil => rfl
  | cons fs rest ih => simp [createSuperFields, ih]

theorem localFieldIdx_lt_length (fs : List FieldInfo) (nm ds : String)
    (j : Nat) (h : localFieldIdx fs nm ds = some j) : j < fs.length := by
  induction fs generalizing j with
  | nil => simp [localFieldIdx] at h
  | cons f rest ih =>
    by_cases hf : f.fieldName = nm ∧ f.descriptor = ds
    · simp [localFieldIdx, hf] at h
      simp [List.length_cons]
      omega
    · simp [localFieldIdx, hf] at h
      obtain ⟨j2, hj2, hj⟩ := h
      have := ih j2 hj2
      simp [List.length_cons]
      omega

-- ## Claims C3, C4, C10 (layout, round-trip, frame)

/-- C3: the instance record created by `createObject` has flat slot count
equal to the sum of the declared-field counts across the ancestor chain,
and a field declared by the `i`-th class of the chain resolves to an
absolute slot index between the sum of the counts of the earlier classes
and that sum plus the `i`-th count minus one. -/
theorem C3_layout_invariant (hp : JavaHeap) (c : JavaClassChain) (i : Nat)
    (fs : List FieldInfo) (nm ds : String) (k : Nat)
    (hs : SortedKeys hp.objectContainer)
    (hfs : c.chain[i]? = some fs)
    (hres : resolveField c.chain i nm ds = some k) :
    mapFind (createObject hp c).1.objectContainer
      (createObject hp c).2.offset = some (createSuperFields c.chain) ∧
    (createSuperFields c.chain).length = totalSlots c ∧
    fieldBase c.chain i ≤ k ∧
    k ≤ fieldBase c.chain i + fs.length - 1 := by
  refine ⟨?_, createSuperFields_length c.chain, ?_, ?_⟩
  · show mapFind
      (mapInsert hp.objectContainer (lastKey hp.objectContainer + 1)
        (createSuperFields c.chain))
      (lastKey hp.objectContainer + 1) = some (createSuperFields c.chain)
    exact mapFind_mapInsert_self hp.objectContainer _ _
      (mapFind_fresh_none hp.objectContainer hs)
  all_goals
    unfold resolveField at hres
    rw [hfs] at hres
    have hres2 : (localFieldIdx fs nm ds).map
        (fun j => fieldBase c.chain i + j) = some k := hres
    cases hloc : localFieldIdx fs nm ds with
    | none => rw [hloc] at hres2; simp at hres2
    | some j =>
      rw [hloc] at hres2
      simp at hres2
      have hjl := localFieldIdx_lt_length fs nm ds j hloc
      omega

/-- Witness for C3: class `B extends A`, `A` declares `x:I`, `B` declares
`y:I`; the record has 2 slots and `B.y` resolves to slot 1. -/
theorem C3_layout_invariant_witness :
    mapFind
      (createObject emptyHeap ⟨[[⟨"x", "I"⟩], [⟨"y", "I"⟩]]⟩).1.objectContainer
      (createObject emptyHeap ⟨[[⟨"x", "I"⟩], [⟨"y", "I"⟩]]⟩).2.offset =
      some (createSuperFields [[⟨"x", "I"⟩], [⟨"y", "I"⟩]]) ∧
    (createSuperFields [[⟨"x", "I"⟩], [⟨"y", "I"⟩]]).length =
      totalSlots ⟨[[⟨"x", "I"⟩], [⟨"y", "I"⟩]]⟩ ∧
    fieldBase [[⟨"x", "I"⟩], [⟨"y", "I"⟩]] 1 ≤ 1 ∧
    1 ≤ fieldBase [[⟨"x", "I"⟩], [⟨"y", "I"⟩]] 1 +
      ([⟨"y", "I"⟩] : List FieldInfo).length - 1 :=
  C3_layout_invariant emptyHeap ⟨[[⟨"x", "I"⟩], [⟨"y", "I"⟩]]⟩ 1
    [⟨"y", "I"⟩] "y" "I" 1 (by decide) (by decide) (by decide)

/-- C4: for a live object handle with an in-bounds slot index and a live
array handle with an in-bounds element index, writing by offset then
reading the same offset returns exactly the written value. -/
theorem C4_round_trip (hp : JavaHeap) (o : JObject) (i : Nat) (v : Slot)
    (a : JArray) (j : Nat) (w : Slot) (fields : List Slot) (len : Nat)
    (elems : List Slot)
    (hof : mapFind hp.objectContainer o.offset = some fields)
    (hi : i < fields.length)
    (haf : mapFind hp.arrayContainer a.offset = some (len, elems))
    (hj : j < elems.length) :
    getFieldByOffset (putFieldByOffset hp o i v) o i = some v ∧
    getElement (putElement hp a j w) a j = some w := by
  constructor
  · show (mapFind
        (mapUpdate hp.objectContainer o.offset (fun fields => fields.set i v))
        o.offset).bind (fun fields => fields[i]?) = some v
    rw [mapFind_mapUpdate_self hp.objectContainer o.offset _ fields hof]
    rw [Option.some_bind]
    exact List.getElem?_set_eq_of_lt v hi
  · show (mapFind
        (mapUpdate hp.arrayContainer a.offset (fun p => (p.1, p.2.set j w)))
        a.offset).bind (fun p => p.2[j]?) = some w
    rw [mapFind_mapUpdate_self hp.arrayContainer a.offset _ (len, elems) haf]
    rw [Option.some_bind]
    exact List.getElem?_set_eq_of_lt w hj

/-- Witness for C4 at a concrete heap with one object and one array. -/
theorem C4_round_trip_witness :
    getFieldByOffset
      (putFieldByOffset ⟨[(1, [none, none])], [(1, (2, [none, none]))], [], 0⟩
        ⟨1, ⟨[]⟩⟩ 0 (some (JValue.prim 42)))
      ⟨1, ⟨[]⟩⟩ 0 = some (some (JValue.prim 42)) ∧
    getElement
      (putElement ⟨[(1, [none, none])], [(1, (2, [none, none]))], [], 0⟩
        ⟨1, 2⟩ 1 (some (JValue.prim 7)))
      ⟨1, 2⟩ 1 = some (some (JValue.prim 7)) :=
  C4_round_trip ⟨[(1, [none, none])], [(1, (2, [none, none]))], [], 0⟩
    ⟨1, ⟨[]⟩⟩ 0 (some (JValue.prim 42)) ⟨1, 2⟩ 1 (some (JValue.prim 7))
    [none, none] 2 [none, none] (by decide) (by decide) (by decide) (by decide)

/-- C10: `putFieldByOffset` changes only the written slot of the written
record — every other slot of that record, every other object record, and
the array and monitor stores are unchanged — and `putElement` satisfies
the analogous frame property on the array store. -/
theorem C10_frame_property (hp : JavaHeap) (o : JObject) (i : Nat) (v : Slot)
    (a : JArray) (ii : Nat) (w : Slot) (fields : List Slot) (len : Nat)
    (elems : List Slot)
    (hof : mapFind hp.objectContainer o.offset = some fields)
    (_hi : i < fields.length)
    (haf : mapFind hp.arrayContainer a.offset = some (len, elems))
    (_hii : ii < elems.length) :
    mapFind (putFieldByOffset hp o i v).objectContainer o.offset =
      some (fields.set i v) ∧
    (∀ j, j ≠ i → getFieldByOffset (putFieldByOffset hp o i v) o j =
      getFieldByOffset hp o j) ∧
    (∀ h2, h2 ≠ o.offset →
      mapFind (putFieldByOffset hp o i v).objectContainer h2 =
      mapFind hp.objectContainer h2) ∧
    (putFieldByOffset hp o i v).arrayContainer = hp.arrayContainer ∧
    (putFieldByOffset hp o i v).monitorContainer = hp.monitorContainer ∧
    mapFind (putElement hp a ii w).arrayContainer a.offset =
      some (len, elems.set ii w) ∧
    (∀ j, j ≠ ii → getElement (putElement hp a ii w) a j =
      getElement hp a j) ∧
    (∀ h2, h2 ≠ a.offset →
      mapFind (putElement hp a ii w).arrayContainer h2 =
      mapFind hp.arrayContainer h2) ∧
    (putElement hp a ii w).objectContainer = hp.objectContainer ∧
    (putElement hp a ii w).monitorContainer = hp.monitorContainer := by
  refine ⟨?_, ?_, ?_, rfl, rfl, ?_, ?_, ?_, rfl, rfl⟩
  · exact mapFind_mapUpdate_self hp.objectContainer o.offset _ fields hof
  · intro j hj
    show (mapFind
        (mapUpdate hp.objectContainer o.offset (fun fields => fields.set i v))
        o.offset).bind (fun fields => fields[j]?) =
      (mapFind hp.objectContainer o.offset).bind (fun fields => fields[j]?)
    rw [mapFind_mapUpdate_self hp.objectContainer o.offset _ fields hof, hof,
      Option.some_bind, Option.some_bind]
    exact List.getElem?_set_ne (Ne.symm hj)
  · intro h2 hh2
    exact mapFind_mapUpdate_ne hp.objectContainer o.offset h2 _ hh2
  · exact mapFind_mapUpdate_self hp.arrayContainer a.offset _ (len, elems) haf
  · intro j hj
    show (mapFind
        (mapUpdate hp.arrayContainer a.offset (fun p => (p.1, p.2.set ii w)))
        a.offset).bind (fun p => p.2[j]?) =
      (mapFind hp.arrayContainer a.offset).bind (fun p => p.2[j]?)
    rw [mapFind_mapUpdate_self hp.arrayContainer a.offset _ (len, elems) haf,
      haf, Option.some_bind, Option.some_bind]
    exact List.getElem?_set_ne (Ne.symm hj)
  · intro h2 hh2
    exact mapFind_mapUpdate_ne hp.arrayContainer a.offset h2 _ hh2

/-- Witness for C10 at a concrete heap, checking the frame at slot 1 and
at handle 2. -/
theorem C10_frame_property_witness :
    mapFind (putFieldByOffset
        ⟨[(1, [none, none])], [(1, (2, [none, none]))], [], 0⟩
        ⟨1, ⟨[]⟩⟩ 0 (some (JValue.prim 42))).objectContainer 1 =
      some ([none, none].set 0 (some (JValue.prim 42))) ∧
    getFieldByOffset (putFieldByOffset
        ⟨[(1, [none, none])], [(1, (2, [none, none]))], [], 0⟩
        ⟨1, ⟨[]⟩⟩ 0 (some (JValue.prim 42))) ⟨1, ⟨[]⟩⟩ 1 =
      getFieldByOffset ⟨[(1, [none, none])], [(1, (2, [none, none]))], [], 0⟩
        ⟨1, ⟨[]⟩⟩ 1 ∧
    mapFind (putFieldByOffset
        ⟨[(1, [none, none])], [(1, (2, [none, none]))], [], 0⟩
        ⟨1, ⟨[]⟩⟩ 0 (some (JValue.prim 42))).objectContainer 2 =
      mapFind (⟨[(1, [none, none])], [(1, (2, [none, none]))], [], 0⟩ :
        JavaHeap).objectContainer 2 ∧
    (putFieldByOffset ⟨[(1, [none, none])], [(1, (2, [none, none]))], [], 0⟩
        ⟨1, ⟨[]⟩⟩ 0 (some (JValue.prim 42))).arrayContainer =
      (⟨[(1, [none, none])], [(1, (2, [none, none]))], [], 0⟩ :
        JavaHeap).arrayContainer ∧
    (putFieldByOffset ⟨[(1, [none, none])], [(1, (2, [none, none]))], [], 0⟩
        ⟨1, ⟨[]⟩⟩ 0 (some (JValue.prim 42))).monitorContainer =
      (⟨[(1, [none, none])], [(1, (2, [none, none]))], [], 0⟩ :
        JavaHeap).monitorContainer ∧
    mapFind (putElement ⟨[(1, [none, none])], [(1, (2, [none, none]))], [], 0⟩
        ⟨1, 2⟩ 0 (some (JValue.prim 7))).arrayContainer 1 =
      some (2, [none, none].set 0 (some (JValue.prim 7))) ∧
    getElement (putElement ⟨[(1, [none, none])], [(1, (2, [none, none]))], [], 0⟩
        ⟨1, 2⟩ 0 (some (JValue.prim 7))) ⟨1, 2⟩ 1 =
      getElement ⟨[(1, [none, none])], [(1, (2, [none, none]))], [], 0⟩
        ⟨1, 2⟩ 1 ∧
    mapFind (putElement ⟨[(1, [none, none])], [(1, (2, [none, none]))], [], 0⟩
        ⟨1, 2⟩ 0 (some (JValue.prim 7))).arrayContainer 2 =
      mapFind (⟨[(1, [none, none])], [(1, (2, [none, none]))], [], 0⟩ :
        JavaHeap).arrayContainer 2 ∧
    (putElement ⟨[(1, [none, none])], [(1, (2, [none, none]))], [], 0⟩
        ⟨1, 2⟩ 0 (some (JValue.prim 7))).objectContainer =
      (⟨[(1, [none, none])], [(1, (2, [none, none]))], [], 0⟩ :
        JavaHeap).objectContainer ∧
    (putElement ⟨[(1, [none, none])], [(1, (2, [none, none]))], [], 0⟩
        ⟨1, 2⟩ 0 (some (JValue.prim 7))).monitorContainer =
      (⟨[(1, [none, none])], [(1, (2, [none, none]))], [], 0⟩ :
        JavaHeap).monitorContainer := by
  have T := C10_frame_property
    ⟨[(1, [none, none])], [(1, (2, [none, none]))], [], 0⟩
    ⟨1, ⟨[]⟩⟩ 0 (some (JValue.prim 42)) ⟨1, 2⟩ 0 (some (JValue.prim 7))
    [none, none] 2 [none, none] (by decide) (by decide) (by decide) (by decide)
  exact ⟨T.1, T.2.1 1 (by decide), T.2.2.1 2 (by decide), T.2.2.2.1,
    T.2.2.2.2.1, T.2.2.2.2.2.1, T.2.2.2.2.2.2.1 1 (by decide),
    T.2.2.2.2.2.2.2.1 2 (by decide), T.2.2.2.2.2.2.2.2.1,
    T.2.2.2.2.2.2.2.2.2⟩

/-- C6 (code behaviour at the failing inputs): on an array reference and
on a primitive value, `dynamic_cast<const JObject*>` yields a null
pointer and `hasMonitor` / `findMonitor` dereference it with no check —
undefined behaviour producing no result, and, against the claim, no
typed `InvalidReferenceKind` failure, since the code constructs none. -/
theorem C6_invalid_kind_not_reported :
    asJObject (JValue.arrRef ⟨1, 5⟩) = none ∧
    hasMonitor emptyHeap (JValue.arrRef ⟨1, 5⟩) = none ∧
    findMonitor emptyHeap (JValue.arrRef ⟨1, 5⟩) = none ∧
    asJObject (JValue.prim 0) = none ∧
    hasMonitor emptyHeap (JValue.prim 0) = none ∧
    findMonitor emptyHeap (JValue.prim 0) = none :=
  ⟨rfl, rfl, rfl, rfl, rfl, rfl⟩

/-- C7 (code behaviour at the failing input): `findMonitor` on an object
reference whose instance (handle 1) passes the cast but has no monitor
record reaches `monitorContainer.find(1)` — line 47's unconditional
end-iterator dereference, undefined behaviour — and yields no monitor
and, against the claim, no `NoMonitor` failure, since the code
constructs none. -/
theorem C7_no_monitor_not_reported :
    asJObject (JValue.objRef ⟨1, ⟨[]⟩⟩) = some ⟨1, ⟨[]⟩⟩ ∧
    mapFind emptyHeap.monitorContainer 1 = none ∧
    findMonitor emptyHeap (JValue.objRef ⟨1, ⟨[]⟩⟩) = none :=
  ⟨rfl, rfl, rfl⟩

/-- C8 (code behaviour at the failing input): create two instances, so
the second one has handle 2, then call `createMonitor()` for it.  The
monitor is placed at handle 1 — the monitor-store maximum plus one — not
at the instance's handle, so `hasMonitor` on the instance stays false
and `findMonitor` on it still finds no monitor after the creation,
against the claim. -/
theorem C8_create_monitor_ignores_instance :
    (createObject (createObject emptyHeap ⟨[[]]⟩).1 ⟨[[]]⟩).2.offset = 2 ∧
    hasMonitor (createObject (createObject emptyHeap ⟨[[]]⟩).1 ⟨[[]]⟩).1
      (JValue.objRef (createObject (createObject emptyHeap ⟨[[]]⟩).1
        ⟨[[]]⟩).2) = some false ∧
    (createMonitor (createObject (createObject emptyHeap ⟨[[]]⟩).1
      ⟨[[]]⟩).1).2 = 1 ∧
    hasMonitor (createMonitor (createObject (createObject emptyHeap
        ⟨[[]]⟩).1 ⟨[[]]⟩).1).1
      (JValue.objRef (createObject (createObject emptyHeap ⟨[[]]⟩).1
        ⟨[[]]⟩).2) = some false ∧
    findMonitor (createMonitor (createObject (createObject emptyHeap
        ⟨[[]]⟩).1 ⟨[[]]⟩).1).1
      (JValue.objRef (createObject (createObject emptyHeap ⟨[[]]⟩).1
        ⟨[[]]⟩).2) = none :=
  ⟨rfl, rfl, rfl, rfl, rfl⟩

/-- C9 (code behaviour at the failing input): a store holds one record
whose slot points at allocated value 7 (element value 9 for the array
store).  `Container::remove` erases the record's map entry but the slot
value stays allocated — nothing deletes it — whereas the container
destructor, run on the same store, does deallocate it, showing the
ownership intent the removal path fails to honour. -/
theorem C9_remove_leaks_slot_values :
    (OwnedObjectStore.removeRecord ⟨[(1, [7])], [7]⟩ 1).data = [] ∧
    (OwnedObjectStore.removeRecord ⟨[(1, [7])], [7]⟩ 1).alloc = [7] ∧
    (ObjectContainer.destruct ⟨[(1, [7])], [7]⟩).alloc = [] ∧
    (OwnedArrayStore.removeRecord ⟨[(1, (1, [9]))], [9]⟩ 1).data = [] ∧
    (OwnedArrayStore.removeRecord ⟨[(1, (1, [9]))], [9]⟩ 1).alloc = [9] ∧
    (ArrayContainer.destruct ⟨[(1, (1, [9]))], [9]⟩).alloc = [] := by
  refine ⟨rfl, rfl, rfl, rfl, rfl, rfl⟩
